import Mathlib

/-!
Shallow embedding of the Durak rules engine (`src/game/` of the repository):
the card model (`card.rs`), the deck (`deck.rs`), the player hands
(`player.rs`), the game-state machine (`game_state.rs`) and the Hard AI's
take-cards decision (`ai.rs`).  Rust `Vec` is modelled as `List`, `usize` as
`Nat`, `Result<(), &str>` as `Except String` carrying the successor state,
and in-place mutation as explicit state passing.  The random shuffle is
modelled by passing the post-shuffle card order as an explicit parameter.
Rust indexing panics (out-of-bounds `players[i]`, `assert!`) are modelled as
distinguished `panic:` error branches; all theorems exercising them carry
validity hypotheses, mirroring the states reachable in the real program.
-/

namespace Durak

/-- `Suit` from `card.rs`. -/
inductive Suit where
  | Clubs
  | Diamonds
  | Hearts
  | Spades
deriving DecidableEq, Repr, Fintype

/-- `Rank` from `card.rs`; the Rust `derive(Ord)` order is declaration order. -/
inductive Rank where
  | Six
  | Seven
  | Eight
  | Nine
  | Ten
  | Jack
  | Queen
  | King
  | Ace
deriving DecidableEq, Repr, Fintype

/-- Numeric value of a rank, realising the derived Rust `Ord` instance
(declaration order `Six < Seven < ... < Ace`). -/
def Rank.val : Rank → Nat
  | .Six => 0
  | .Seven => 1
  | .Eight => 2
  | .Nine => 3
  | .Ten => 4
  | .Jack => 5
  | .Queen => 6
  | .King => 7
  | .Ace => 8

/-- Numeric value of a suit, realising Rust `suit as usize`
(declaration order `Clubs = 0, Diamonds = 1, Hearts = 2, Spades = 3`). -/
def Suit.val : Suit → Nat
  | .Clubs => 0
  | .Diamonds => 1
  | .Hearts => 2
  | .Spades => 3

/-- `Suit::all()` from `card.rs`. -/
def Suit.all : List Suit :=
  [Suit.Clubs, Suit.Diamonds, Suit.Hearts, Suit.Spades]

/-- `Rank::all()` from `card.rs`. -/
def Rank.all : List Rank :=
  [Rank.Six, Rank.Seven, Rank.Eight, Rank.Nine, Rank.Ten,
   Rank.Jack, Rank.Queen, Rank.King, Rank.Ace]

/-- `Card` from `card.rs`. -/
structure Card where
  suit : Suit
  rank : Rank
deriving DecidableEq, Repr, Fintype

instance : Inhabited Card := ⟨⟨Suit.Clubs, Rank.Six⟩⟩

/-- `Card::can_beat` from `card.rs`: same suit needs a strictly higher rank,
otherwise only a trump beats a non-trump. -/
def Card.can_beat (self other : Card) (trump_suit : Suit) : Bool :=
  if self.suit = other.suit then
    decide (other.rank.val < self.rank.val)
  else if self.suit = trump_suit ∧ other.suit ≠ trump_suit then
    true
  else
    false

/-- `Card::can_pass` from `card.rs`: equal rank, suit irrelevant. -/
def Card.can_pass (self other : Card) : Bool :=
  decide (self.rank = other.rank)

/-- The 36-card deck content built by `Deck::new()` (`deck.rs`): every suit
crossed with every rank, suit-major in declaration order. -/
def full_deck : List Card :=
  Suit.all.flatMap (fun s => Rank.all.map (fun r => Card.mk s r))

example : full_deck.length = 36 := by decide

/-- `PlayerType` from `player.rs`. -/
inductive PlayerType where
  | Human
  | Computer
deriving DecidableEq, Repr

/-- `Player` from `player.rs`. -/
structure Player where
  name : String
  player_type : PlayerType
  hand : List Card
deriving DecidableEq, Repr

/-- The comparator of `Player::sort_hand` (`player.rs`): by suit enum order,
then by rank.  Rust's stable `sort_by` is modelled by the stable insertion
sort below; any two stable sorts agree on a total preorder comparator. -/
def hand_le (a b : Card) : Prop :=
  if a.suit = b.suit then a.rank.val ≤ b.rank.val
  else a.suit.val ≤ b.suit.val

instance : DecidableRel hand_le := fun a b => by
  unfold hand_le
  infer_instance

/-- `Player::sort_hand` from `player.rs`. -/
def Player.sort_hand (p : Player) : Player :=
  { p with hand := p.hand.insertionSort hand_le }

/-- `Player::add_cards` from `player.rs`: extend, then re-sort. -/
def Player.add_cards (p : Player) (cards : List Card) : Player :=
  Player.sort_hand { p with hand := p.hand ++ cards }

/-- `Player::remove_card` from `player.rs`: positional removal, `none` when
the index is out of range (the player is then unchanged). -/
def Player.remove_card (p : Player) (index : Nat) : Option Card × Player :=
  if h : index < p.hand.length then
    (some p.hand[index], { p with hand := p.hand.eraseIdx index })
  else
    (none, p)

/-- `Player::hand_size` from `player.rs`. -/
def Player.hand_size (p : Player) : Nat :=
  p.hand.length

/-- `Player::is_empty_hand` from `player.rs`. -/
def Player.is_empty_hand (p : Player) : Bool :=
  p.hand.isEmpty

/-- `Player::get_lowest_trump` from `player.rs`: the first minimum-rank trump
in hand with its index (Rust `min_by_key` keeps the first of equal minima). -/
def Player.get_lowest_trump (p : Player) (trump : Suit) : Option (Nat × Card) :=
  (p.hand.enum.filter (fun ic => ic.2.suit = trump)).foldl
    (fun acc ic =>
      match acc with
      | none => some ic
      | some best => if ic.2.rank.val < best.2.rank.val then some ic else some best)
    none

/-- `Deck` from `deck.rs`. -/
structure Deck where
  cards : List Card
  trump_suit : Option Suit
deriving DecidableEq, Repr

/-- `Deck::new()` from `deck.rs`. -/
def Deck.new : Deck :=
  { cards := full_deck, trump_suit := none }

/-- `Deck::shuffle` from `deck.rs`, with the random permutation made an
explicit parameter `order`: the trump suit is fixed from `cards.last()`
(the code's notion of the bottom card) after shuffling. -/
def Deck.shuffled (order : List Card) : Deck :=
  { cards := order, trump_suit := order.getLast?.map Card.suit }

/-- `Deck::deal` from `deck.rs`: pops up to `count` cards from the end of the
card vector, in pop order. -/
def Deck.deal (d : Deck) : Nat → List Card × Deck
  | 0 => ([], d)
  | count + 1 =>
    match d.cards.getLast? with
    | none => ([], d)
    | some c =>
      let rest := Deck.deal { d with cards := d.cards.dropLast } count
      (c :: rest.1, rest.2)

/-- `Deck::is_empty` from `deck.rs`. -/
def Deck.is_empty (d : Deck) : Bool :=
  d.cards.isEmpty

/-- `Deck::remaining` / `Deck::size` from `deck.rs`. -/
def Deck.remaining (d : Deck) : Nat :=
  d.cards.length

/-- `GamePhase` from `game_state.rs`. -/
inductive GamePhase where
  | Setup
  | Attack
  | Defense
  | Drawing
  | GameOver
deriving DecidableEq, Repr

/-- `GameState` from `game_state.rs`. -/
structure GameState where
  players : List Player
  deck : Deck
  discard_pile : List Card
  table_cards : List (Card × Option Card)
  current_attacker : Nat
  current_defender : Nat
  trump_suit : Option Suit
  game_phase : GamePhase
  winner : Option Nat
  stuck_counter : Nat
deriving DecidableEq, Repr

/-- Flattening of the table used by `take_cards`, `discard_cards`,
`draw_cards` and `force_attack_phase` (`game_state.rs`): each entry yields
its attack card followed by its defense card when present. -/
def flat_table : List (Card × Option Card) → List Card
  | [] => []
  | (a, none) :: rest => a :: flat_table rest
  | (a, some d) :: rest => a :: d :: flat_table rest

/-- `GameState::attack` from `game_state.rs`: removes the indexed card from
the acting seat's hand, appends it to the table undefended, moves to Defense
phase and makes that seat the attacker.  The Rust `self.players[player_idx]`
indexing panic is modelled as a distinguished error. -/
def GameState.attack (s : GameState) (card_idx player_idx : Nat) :
    Except String GameState :=
  match s.players[player_idx]? with
  | none => Except.error "panic: player index out of bounds"
  | some attacker =>
    match attacker.remove_card card_idx with
    | (some card, attacker2) =>
      Except.ok { s with
        players := s.players.set player_idx attacker2
        table_cards := s.table_cards ++ [(card, none)]
        game_phase := GamePhase.Defense
        current_attacker := player_idx
        current_defender := (player_idx + 1) % s.players.length }
    | (none, _) => Except.error "Invalid card index"

/-- `GameState::pass_attack` from `game_state.rs`: the defender's card joins
the table as a new undefended attack and the roles rotate forward from the
old defender. -/
def GameState.pass_attack (s : GameState) (card_idx _attack_idx : Nat) :
    Except String GameState :=
  match s.players[s.current_defender]? with
  | none => Except.error "panic: player index out of bounds"
  | some defender =>
    match defender.remove_card card_idx with
    | (some card, defender2) =>
      let old_defender := s.current_defender
      Except.ok { s with
        players := s.players.set s.current_defender defender2
        table_cards := s.table_cards ++ [(card, none)]
        current_attacker := old_defender
        current_defender := (old_defender + 1) % s.players.length
        game_phase := GamePhase.Defense }
    | (none, _) => Except.error "Failed to remove card from hand during pass"

/-- The first undefended table entry's index, as computed at the top of
`GameState::defend` (`game_state.rs`). -/
def first_undefended (t : List (Card × Option Card)) : Option Nat :=
  t.findIdx? (fun e => e.2.isNone)

/-- `GameState::defend` from `game_state.rs`: against the first undefended
attack, an equal-rank card passes (`pass_attack`), a card valid under the
inline trump rules is recorded as that entry's defense, anything else is an
error leaving the state untouched. -/
def GameState.defend (s : GameState) (card_idx : Nat) : Except String GameState :=
  match first_undefended s.table_cards with
  | some attack_idx =>
    match s.players[s.current_defender]? with
    | none => Except.error "panic: player index out of bounds"
    | some defender =>
      if h : card_idx < defender.hand.length then
        let defense_card := defender.hand[card_idx]
        let attack_card := ((s.table_cards.getD attack_idx (default, none))).1
        if defense_card.can_pass attack_card then
          s.pass_attack card_idx attack_idx
        else
          let is_valid : Bool :=
            match s.trump_suit with
            | some trump =>
              if attack_card.suit = trump then
                decide (defense_card.suit = trump) &&
                  decide (attack_card.rank.val < defense_card.rank.val)
              else if defense_card.suit = trump then
                true
              else
                decide (defense_card.suit = attack_card.suit) &&
                  decide (attack_card.rank.val < defense_card.rank.val)
            | none =>
              decide (defense_card.suit = attack_card.suit) &&
                decide (attack_card.rank.val < defense_card.rank.val)
          if is_valid then
            match defender.remove_card card_idx with
            | (some card, defender2) =>
              Except.ok { s with
                players := s.players.set s.current_defender defender2
                table_cards :=
                  s.table_cards.set attack_idx
                    ((s.table_cards.getD attack_idx (default, none)).1, some card) }
            | (none, _) => Except.error "Failed to remove card from hand"
          else
            Except.error "Invalid defense - card cannot beat the attack"
      else
        Except.error "Invalid card index"
  | none => Except.error "No undefended attacks to defend against"

/-- `GameState::take_cards` from `game_state.rs`: in Defense phase with a
non-empty table, every table card joins the defender's hand, the table is
cleared, and the phase becomes Drawing.  The `assert!` on the phase is
modelled as a distinguished error. -/
def GameState.take_cards (s : GameState) : Except String GameState :=
  if s.game_phase ≠ GamePhase.Defense then
    Except.error "panic: assertion failed: game_phase == Defense"
  else if s.table_cards.isEmpty then
    Except.error "No cards on table to take"
  else
    match s.players[s.current_defender]? with
    | none => Except.error "panic: player index out of bounds"
    | some defender =>
      Except.ok { s with
        players :=
          s.players.set s.current_defender
            (defender.add_cards (flat_table s.table_cards))
        table_cards := []
        game_phase := GamePhase.Drawing }

/-- The seats still holding cards, in seat order: the one-pass count and
last-holder scan of `GameState::check_game_over` (`game_state.rs`) gives its
length and its last element. -/
def card_holders (s : GameState) : List Nat :=
  (s.players.enum.filter (fun ip => ¬ ip.2.hand.isEmpty)).map Prod.fst

/-- `GameState::check_game_over` from `game_state.rs`: with an empty deck it
counts the seats still holding cards; at most one means game over, and a
single holder makes the *other* seat of the two-seat model the winner. -/
def GameState.check_game_over (s : GameState) : Bool × GameState :=
  if s.deck.cards.isEmpty then
    if (card_holders s).length ≤ 1 then
      match (card_holders s).getLast? with
      | some loser_idx =>
        (true, { s with
          winner := some (if loser_idx = 1 then 0 else 1)
          game_phase := GamePhase.GameOver })
      | none => (true, { s with game_phase := GamePhase.GameOver })
    else
      (false, s)
  else
    (false, s)

/-- The per-seat top-up loop of `GameState::draw_cards` (`game_state.rs`):
each seat in drawing order is dealt up to six cards while the deck lasts. -/
def draw_loop : List Nat → List Player → Deck → List Player × Deck
  | [], players, deck => (players, deck)
  | idx :: rest, players, deck =>
    match players[idx]? with
    | none => draw_loop rest players deck
    | some p =>
      let cards_needed := 6 - p.hand_size
      if cards_needed > 0 ∧ ¬ deck.cards.isEmpty then
        let dealt := deck.deal cards_needed
        draw_loop rest (players.set idx (p.add_cards dealt.1)) dealt.2
      else
        draw_loop rest players deck

/-- The post-draw finish of the main branch of `GameState::draw_cards`
(`game_state.rs`): check game over; if not over, rotate the roles only when
the table is still non-empty, then return to Attack phase. -/
def draw_phase_finish (s2 : GameState) : GameState :=
  let s3 := (s2.check_game_over).2
  if s3.game_phase ≠ GamePhase.GameOver then
    let s3a :=
      if (! s3.table_cards.isEmpty) = true then
        let new_attacker := (s3.current_defender + 1) % s3.players.length
        { s3 with
          current_attacker := new_attacker
          current_defender := (new_attacker + 1) % s3.players.length }
      else s3
    { s3a with game_phase := GamePhase.Attack }
  else s3

/-- The non-empty-deck branch of `GameState::draw_cards` (`game_state.rs`):
top every seat up to six in cyclic order from the attacker, then finish. -/
def draw_main (s1 : GameState) : GameState :=
  let n := s1.players.length
  let drawing_order := (List.range n).map (fun i => (s1.current_attacker + i) % n)
  let drawn := draw_loop drawing_order s1.players s1.deck
  draw_phase_finish { s1 with players := drawn.1, deck := drawn.2 }

/-- `GameState::draw_cards` from `game_state.rs`: no-op outside Drawing;
stuck-counter guard past five attempts force-clears the table; otherwise the
seats are topped up from the attacker onward via `draw_main`, and the stuck
counter resets once the phase reaches Attack or GameOver. -/
def GameState.draw_cards (s : GameState) : GameState :=
  if s.game_phase ≠ GamePhase.Drawing then s
  else
    let s1 := { s with stuck_counter := s.stuck_counter + 1 }
    if s1.stuck_counter > 5 then
      { s1 with
        game_phase := GamePhase.Attack
        stuck_counter := 0
        discard_pile := s1.discard_pile ++ flat_table s1.table_cards
        table_cards := [] }
    else
      let players_need_cards :=
        s1.players.any (fun p => p.hand_size < 6 && ! s1.deck.is_empty)
      if (! players_need_cards) = true then
        { s1 with game_phase := GamePhase.Attack, stuck_counter := 0 }
      else
        let s4 :=
          if (! s1.deck.is_empty) = true then
            draw_main s1
          else
            let s3 := (s1.check_game_over).2
            if s3.game_phase ≠ GamePhase.GameOver then
              { s3 with game_phase := GamePhase.Attack }
            else s3
        if s4.game_phase = GamePhase.Attack ∨ s4.game_phase = GamePhase.GameOver then
          { s4 with stuck_counter := 0 }
        else s4

/-- `GameState::determine_first_player` from `game_state.rs`: the seat whose
lowest trump is smallest (first such seat on ties), seat 0 when nobody holds
a trump or there is no trump suit. -/
def determine_first_player (s : GameState) : Nat :=
  match s.trump_suit with
  | some trump =>
    let result :=
      s.players.enum.foldl
        (fun (acc : Nat × Option Rank) ip =>
          match ip.2.get_lowest_trump trump with
          | some (_, card) =>
            match acc.2 with
            | none => (ip.1, some card.rank)
            | some r =>
              if card.rank.val < r.val then (ip.1, some card.rank) else acc
          | none => acc)
        (0, none)
    match result.2 with
    | some _ => result.1
    | none => 0
  | none => 0

/-- One step of the dealing loop in `GameState::setup_game`
(`game_state.rs`): the next seat receives six cards from the deck. -/
def deal_step (acc : List Player × Deck) (p : Player) : List Player × Deck :=
  let dealt := acc.2.deal 6
  (acc.1 ++ [p.add_cards dealt.1], dealt.2)

/-- `GameState::setup_game` from `game_state.rs`, parameterised by the
post-shuffle deck order: a fresh shuffled deck fixes the trump, six cards go
to each seat in order, the lowest-trump holder starts, and play enters the
Attack phase. -/
def GameState.setup_game (s : GameState) (order : List Card) : GameState :=
  let deck0 := Deck.shuffled order
  let step := s.players.foldl deal_step ([], deck0)
  let s1 := { s with
    players := step.1
    deck := step.2
    trump_suit := deck0.trump_suit }
  let attacker := determine_first_player s1
  { s1 with
    current_attacker := attacker
    current_defender := (attacker + 1) % s1.players.length
    game_phase := GamePhase.Attack
    stuck_counter := 0 }

/-- The first minimum-rank card of a list (Rust `min_by_key(.. card.rank)`
keeps the first of equal minima), as used throughout `ai.rs`. -/
def min_by_rank (l : List Card) : Option Card :=
  l.foldl
    (fun acc c =>
      match acc with
      | none => some c
      | some best => if c.rank.val < best.rank.val then some c else some best)
    none

/-- The greedy defense-planning loop of `HardStrategy::should_take_cards`
(`ai.rs`): per undefended attack, pick the cheapest unused non-trump beater,
else the cheapest unused trump beater, accumulating the plan (the values of
the Rust `HashMap`, whose keys are never read) and the counts of valuable
cards (non-trump Jack-or-higher, or any trump) and of high trumps
(Jack-or-higher trumps).  `none` models the early `return true` when an
attack has no unused beater left. -/
def plan_defenses (hand : List Card) (trump : Suit) :
    List Card → List Card → Nat → Nat → Option (Nat × Nat)
  | [], _plan, valuable, high => some (valuable, high)
  | attack :: rest, plan, valuable, high =>
    let possible :=
      hand.filter (fun c => (! plan.contains c) && c.can_beat attack trump)
    if possible.isEmpty then
      none
    else
      match min_by_rank (possible.filter (fun c => c.suit ≠ trump)) with
      | some card =>
        plan_defenses hand trump rest (card :: plan)
          (if Rank.Jack.val ≤ card.rank.val then valuable + 1 else valuable) high
      | none =>
        match min_by_rank (possible.filter (fun c => c.suit = trump)) with
        | some card =>
          plan_defenses hand trump rest (card :: plan)
            (valuable + 1)
            (if Rank.Jack.val ≤ card.rank.val then high + 1 else high)
        | none => plan_defenses hand trump rest plan valuable high

/-- The final weighing stage of `HardStrategy::should_take_cards`
(`ai.rs`): endgame trump conservation, hand-overload avoidance, opponent
pressure, and the closing strategic-take disjunction, given the counts from
the greedy defense plan. -/
def hard_take_weigh (s : GameState) (player_idx : Nat) (player : Player)
    (trump_suit : Suit) (valuable_cards_used high_trumps_used : Nat) : Bool :=
  let hand := player.hand
  let is_endgame := s.deck.is_empty || decide (s.deck.remaining ≤ 2)
  let high_trumps_played :=
    (s.discard_pile.filter
      (fun c => decide (c.suit = trump_suit) && decide (Rank.Jack.val ≤ c.rank.val))).length
  let hand_high_trumps :=
    (hand.filter
      (fun c => decide (c.suit = trump_suit) && decide (Rank.Jack.val ≤ c.rank.val))).length
  let holding_last_high_trumps := hand_high_trumps ≤ high_trumps_used
  if is_endgame && decide (0 < high_trumps_used) &&
      (decide holding_last_high_trumps && decide (high_trumps_played < 4)) then
    true
  else
    let cards_to_take := s.table_cards.length
    let new_hand_size := player.hand_size + cards_to_take
    let hand_limit := 6
    if decide (hand_limit + 2 < new_hand_size) && decide (valuable_cards_used < 2) then
      false
    else
      let opponent_idx :=
        if player_idx = s.current_defender then s.current_attacker
        else s.current_defender
      let opponent_card_count :=
        ((s.players[opponent_idx]?).map Player.hand_size).getD 0
      if is_endgame && decide (opponent_card_count ≤ 2) &&
          decide (valuable_cards_used ≤ 1) then
        false
      else
        decide (2 ≤ valuable_cards_used) ||
          (decide (1 ≤ high_trumps_used) && is_endgame) ||
          (decide (cards_to_take ≤ 2) && decide (new_hand_size ≤ hand_limit))

/-- `HardStrategy::should_take_cards` from `ai.rs`: mandatory take when some
undefended attack is unbeatable, otherwise a greedy defense plan is costed
and weighed (`hard_take_weigh`).  The Rust panics on a missing trump suit or
an out-of-range seat are modelled as `false` branches never reached under
the theorems' validity hypotheses. -/
def hard_should_take_cards (s : GameState) (player_idx : Nat) : Bool :=
  match s.players[player_idx]?, s.trump_suit with
  | some player, some trump_suit =>
    let hand := player.hand
    let undefended_attacks :=
      (s.table_cards.filter (fun e => e.2.isNone)).map Prod.fst
    if undefended_attacks.isEmpty then
      false
    else if undefended_attacks.any
        (fun attack => (hand.filter (fun c => c.can_beat attack trump_suit)).isEmpty) then
      true
    else
      match plan_defenses hand trump_suit undefended_attacks [] 0 0 with
      | none => true
      | some (valuable_cards_used, high_trumps_used) =>
        hard_take_weigh s player_idx player trump_suit
          valuable_cards_used high_trumps_used
  | _, _ => false

/-! ## Claim theorems -/

example : (Card.mk Suit.Hearts Rank.Ten).can_beat (Card.mk Suit.Hearts Rank.Seven) Suit.Spades = true := by decide
example : (Card.mk Suit.Diamonds Rank.Ace).can_beat (Card.mk Suit.Hearts Rank.Six) Suit.Spades = false := by decide

/-- C1: `can_beat a b t` is true exactly when a and b share a suit and a's
rank is strictly greater, or a is trump and b is not; in every other case
(including mismatched non-trump suits) it is false. -/
theorem C1_can_beat_characterisation :
    ∀ (a b : Card) (t : Suit),
      a.can_beat b t = true ↔
        ((a.suit = b.suit ∧ b.rank.val < a.rank.val) ∨
          (a.suit = t ∧ b.suit ≠ t)) := by
  intro a b t
  unfold Card.can_beat
  by_cases h1 : a.suit = b.suit
  · rw [if_pos h1, decide_eq_true_eq]
    constructor
    · exact fun hr => Or.inl ⟨h1, hr⟩
    · rintro (⟨_, hr⟩ | ⟨ha, hb⟩)
      · exact hr
      · exact absurd (h1 ▸ ha) hb
  · rw [if_neg h1]
    by_cases h2 : a.suit = t ∧ b.suit ≠ t
    · rw [if_pos h2]
      exact iff_of_true rfl (Or.inr h2)
    · rw [if_neg h2]
      constructor
      · intro hfalse; exact absurd hfalse Bool.false_ne_true
      · rintro (⟨hs, _⟩ | hy)
        · exact absurd hs h1
        · exact absurd hy h2

/-- A computer-controlled seat with the given hand, for concrete instances. -/
def mk_seat (h : List Card) : Player :=
  { name := "seat", player_type := PlayerType.Computer, hand := h }

/-- A small concrete two-seat state used to instantiate the theorems. -/
def wState : GameState :=
  { players := [mk_seat [⟨Suit.Hearts, Rank.Seven⟩], mk_seat [⟨Suit.Clubs, Rank.Nine⟩]]
    deck := { cards := [⟨Suit.Diamonds, Rank.Six⟩], trump_suit := some Suit.Spades }
    discard_pile := []
    table_cards := []
    current_attacker := 0
    current_defender := 1
    trump_suit := some Suit.Spades
    game_phase := GamePhase.Attack
    winner := none
    stuck_counter := 0 }

/-- C9: with a valid seat index, `attack` fails exactly when the card index
is out of range for that seat's hand (changing nothing), and otherwise
succeeds regardless of phase or current roles: the card moves from the hand
to the table undefended, the seat becomes attacker, the next seat cyclically
becomes defender, and the phase becomes Defense. -/
theorem C9_attack_spec (s : GameState) (card_idx player_idx : Nat)
    (hp : player_idx < s.players.length) :
    (s.players[player_idx].hand.length ≤ card_idx →
      s.attack card_idx player_idx = Except.error "Invalid card index") ∧
    (card_idx < s.players[player_idx].hand.length →
      s.attack card_idx player_idx = Except.ok { s with
        players := s.players.set player_idx
          { s.players[player_idx] with
            hand := s.players[player_idx].hand.eraseIdx card_idx }
        table_cards := s.table_cards ++ [(s.players[player_idx].hand.getD card_idx default, none)]
        game_phase := GamePhase.Defense
        current_attacker := player_idx
        current_defender := (player_idx + 1) % s.players.length }) := by
  constructor
  · intro hge
    have hnot : ¬ card_idx < s.players[player_idx].hand.length := Nat.not_lt.mpr hge
    simp only [GameState.attack, List.getElem?_eq_getElem hp, Player.remove_card]
    rw [dif_neg hnot]
  · intro h
    simp only [GameState.attack, List.getElem?_eq_getElem hp, Player.remove_card]
    rw [dif_pos h, List.getD_eq_getElem s.players[player_idx].hand default h]

/-- Witness for C9 at the concrete state `wState`: index 5 is rejected for a
one-card hand, index 0 is accepted and produces the described state. -/
theorem C9_attack_spec_witness :
    wState.attack 5 0 = Except.error "Invalid card index" ∧
    wState.attack 0 0 = Except.ok { wState with
      players := [mk_seat [], mk_seat [⟨Suit.Clubs, Rank.Nine⟩]]
      table_cards := [(⟨Suit.Hearts, Rank.Seven⟩, none)]
      game_phase := GamePhase.Defense
      current_attacker := 0
      current_defender := 1 } := by
  constructor
  · exact (C9_attack_spec wState 5 0 (by decide)).1 (by decide)
  · have h := (C9_attack_spec wState 0 0 (by decide)).2 (by decide)
    rw [h]
    refine congrArg Except.ok ?_
    decide

/-- C2: in Defense phase with an undefended entry, a defend call naming a
card of equal rank but different suit to the first undefended attack is
always resolved as a pass: the card joins the table as a new undefended
attack, the old defender becomes attacker, the next seat cyclically becomes
defender, and the phase stays Defense. -/
theorem C2_defend_same_rank_is_pass (s : GameState) (card_idx i : Nat)
    (atk : Card × Option Card)
    (hph : s.game_phase = GamePhase.Defense)
    (hd : s.current_defender < s.players.length)
    (hfu : first_undefended s.table_cards = some i)
    (hti : s.table_cards[i]? = some atk)
    (hc : card_idx < s.players[s.current_defender].hand.length)
    (hrank : (s.players[s.current_defender].hand.getD card_idx default).rank = atk.1.rank)
    (hsuit : (s.players[s.current_defender].hand.getD card_idx default).suit ≠ atk.1.suit) :
    s.defend card_idx = Except.ok { s with
      players := s.players.set s.current_defender
        { s.players[s.current_defender] with
          hand := s.players[s.current_defender].hand.eraseIdx card_idx }
      table_cards :=
        s.table_cards ++ [(s.players[s.current_defender].hand.getD card_idx default, none)]
      current_attacker := s.current_defender
      current_defender := (s.current_defender + 1) % s.players.length
      game_phase := GamePhase.Defense } := by
  have hatk : s.table_cards.getD i (default, none) = atk := by
    rw [List.getD_eq_getElem?_getD, hti]
    rfl
  have hget : s.players[s.current_defender].hand.getD card_idx default =
      s.players[s.current_defender].hand[card_idx] :=
    List.getD_eq_getElem s.players[s.current_defender].hand default hc
  rw [hget] at hrank
  have hpass : (s.players[s.current_defender].hand[card_idx]).can_pass atk.1 = true := by
    unfold Card.can_pass
    exact decide_eq_true hrank
  simp only [GameState.defend, hfu, List.getElem?_eq_getElem hd]
  rw [dif_pos hc, hatk, if_pos hpass]
  simp only [GameState.pass_attack, List.getElem?_eq_getElem hd, Player.remove_card]
  rw [dif_pos hc, hget]

/-- A concrete two-seat Defense-phase state for the defend theorems: trump
is Clubs, the table holds one undefended Seven of Hearts, and the defender
holds the Seven of Spades and the Six of Diamonds. -/
def wDefense : GameState :=
  { players :=
      [mk_seat [⟨Suit.Hearts, Rank.Ten⟩],
       mk_seat [⟨Suit.Spades, Rank.Seven⟩, ⟨Suit.Diamonds, Rank.Six⟩]]
    deck := { cards := [⟨Suit.Clubs, Rank.Six⟩], trump_suit := some Suit.Clubs }
    discard_pile := []
    table_cards := [(⟨Suit.Hearts, Rank.Seven⟩, none)]
    current_attacker := 0
    current_defender := 1
    trump_suit := some Suit.Clubs
    game_phase := GamePhase.Defense
    winner := none
    stuck_counter := 0 }

/-- Witness for C2 at `wDefense`: passing with the Seven of Spades rotates
the roles and leaves two undefended table entries. -/
theorem C2_defend_same_rank_is_pass_witness :
    wDefense.defend 0 = Except.ok { wDefense with
      players :=
        [mk_seat [⟨Suit.Hearts, Rank.Ten⟩], mk_seat [⟨Suit.Diamonds, Rank.Six⟩]]
      table_cards :=
        [(⟨Suit.Hearts, Rank.Seven⟩, none), (⟨Suit.Spades, Rank.Seven⟩, none)]
      current_attacker := 1
      current_defender := 0
      game_phase := GamePhase.Defense } := by
  have h := C2_defend_same_rank_is_pass wDefense 0 0
    (⟨Suit.Hearts, Rank.Seven⟩, none) (by decide) (by decide) (by decide)
    (by decide) (by decide) (by decide) (by decide)
  rw [h]
  refine congrArg Except.ok ?_
  decide

/-- The inline validity test of `GameState::defend` agrees with
`Card::can_beat` whenever a trump suit is set. -/
theorem defend_valid_eq_can_beat :
    ∀ (d a : Card) (t : Suit),
      (if a.suit = t then
          decide (d.suit = t) && decide (a.rank.val < d.rank.val)
        else if d.suit = t then true
        else decide (d.suit = a.suit) && decide (a.rank.val < d.rank.val))
        = d.can_beat a t := by
  decide

/-- C7: in Defense phase with a trump suit set, an in-range card that can
neither pass (equal rank) nor beat the first undefended attack makes
`defend` fail with the invalid-defense error and no state change; with no
undefended entry at all it fails with the nothing-to-defend error, also
changing nothing. -/
theorem C7_defend_failure_spec (s : GameState) (card_idx i : Nat) (t : Suit)
    (atk : Card × Option Card)
    (hph : s.game_phase = GamePhase.Defense)
    (hd : s.current_defender < s.players.length)
    (ht : s.trump_suit = some t) :
    (first_undefended s.table_cards = some i →
      s.table_cards[i]? = some atk →
      card_idx < s.players[s.current_defender].hand.length →
      (s.players[s.current_defender].hand.getD card_idx default).can_pass atk.1 = false →
      (s.players[s.current_defender].hand.getD card_idx default).can_beat atk.1 t = false →
      s.defend card_idx = Except.error "Invalid defense - card cannot beat the attack") ∧
    (first_undefended s.table_cards = none →
      s.defend card_idx = Except.error "No undefended attacks to defend against") := by
  constructor
  · intro hfu hti hc hpass hbeat
    have hatk : s.table_cards.getD i (default, none) = atk := by
      rw [List.getD_eq_getElem?_getD, hti]
      rfl
    have hget : s.players[s.current_defender].hand.getD card_idx default =
        s.players[s.current_defender].hand[card_idx] :=
      List.getD_eq_getElem s.players[s.current_defender].hand default hc
    rw [hget] at hpass hbeat
    simp only [GameState.defend, hfu, List.getElem?_eq_getElem hd, ht]
    rw [dif_pos hc, hatk, hpass, if_neg Bool.false_ne_true]
    rw [defend_valid_eq_can_beat (s.players[s.current_defender].hand[card_idx]) atk.1 t]
    rw [hbeat, if_neg Bool.false_ne_true]
  · intro hfu
    simp only [GameState.defend, hfu]

/-- A concrete Defense-phase state whose single table entry is already
defended, so there is nothing left to defend. -/
def wDefended : GameState :=
  { wDefense with
    table_cards := [(⟨Suit.Hearts, Rank.Seven⟩, some ⟨Suit.Hearts, Rank.Ten⟩)] }

/-- Witness for C7 at `wDefense` and `wDefended`: the Six of Diamonds can
neither pass nor beat the Seven of Hearts under trump Clubs, and a fully
defended table yields the nothing-to-defend error. -/
theorem C7_defend_failure_spec_witness :
    wDefense.defend 1 = Except.error "Invalid defense - card cannot beat the attack" ∧
    wDefended.defend 0 = Except.error "No undefended attacks to defend against" := by
  constructor
  · exact (C7_defend_failure_spec wDefense 1 0 Suit.Clubs
      (⟨Suit.Hearts, Rank.Seven⟩, none) (by decide) (by decide) (by decide)).1
      (by decide) (by decide) (by decide) (by decide) (by decide)
  · exact (C7_defend_failure_spec wDefended 0 0 Suit.Clubs
      (⟨Suit.Hearts, Rank.Seven⟩, none) (by decide) (by decide) (by decide)).2
      (by decide)

/-- C3: in Defense phase, `take_cards` on a non-empty table moves every
table card (attacks and defenses) into the current defender's hand, empties
the table, sets the phase to Drawing and succeeds; on an empty table it
fails and changes nothing. -/
theorem C3_take_cards_spec (s : GameState)
    (hph : s.game_phase = GamePhase.Defense)
    (hd : s.current_defender < s.players.length) :
    (s.table_cards ≠ [] →
      s.take_cards = Except.ok { s with
        players := s.players.set s.current_defender
          ((s.players[s.current_defender]).add_cards (flat_table s.table_cards))
        table_cards := []
        game_phase := GamePhase.Drawing } ∧
      ((((s.players[s.current_defender]).add_cards (flat_table s.table_cards)).hand :
          Multiset Card)
        = (s.players[s.current_defender].hand : Multiset Card)
          + (flat_table s.table_cards : Multiset Card))) ∧
    (s.table_cards = [] →
      s.take_cards = Except.error "No cards on table to take") := by
  have hph2 : ¬ s.game_phase ≠ GamePhase.Defense := fun hne => hne hph
  constructor
  · intro htab
    have htab2 : ¬ (s.table_cards.isEmpty = true) := by
      simpa [List.isEmpty_iff] using htab
    constructor
    · simp only [GameState.take_cards]
      rw [if_neg hph2, if_neg htab2, List.getElem?_eq_getElem hd]
    · show ((List.insertionSort hand_le _ : List Card) : Multiset Card) = _
      rw [Multiset.coe_eq_coe.mpr (List.perm_insertionSort hand_le _)]
      exact (Multiset.coe_add _ _).symm
  · intro htab
    have htab2 : s.table_cards.isEmpty = true := by simp [List.isEmpty_iff, htab]
    simp only [GameState.take_cards]
    rw [if_neg hph2, if_pos htab2]

/-- Witness for C3 at `wDefense` (non-empty table) and at `wState` put in
Defense phase with its empty table. -/
theorem C3_take_cards_spec_witness :
    (wDefense.take_cards = Except.ok { wDefense with
      players :=
        [mk_seat [⟨Suit.Hearts, Rank.Ten⟩],
         mk_seat [⟨Suit.Diamonds, Rank.Six⟩, ⟨Suit.Hearts, Rank.Seven⟩,
                  ⟨Suit.Spades, Rank.Seven⟩]]
      table_cards := []
      game_phase := GamePhase.Drawing }) ∧
    ({ wState with game_phase := GamePhase.Defense }.take_cards
      = Except.error "No cards on table to take") := by
  constructor
  · have h := ((C3_take_cards_spec wDefense (by decide) (by decide)).1 (by decide)).1
    rw [h]
    refine congrArg Except.ok ?_
    decide
  · exact (C3_take_cards_spec { wState with game_phase := GamePhase.Defense }
      (by decide) (by decide)).2 (by decide)

/-- C4: starting from a state with no winner recorded, `check_game_over`
returns true with a winner recorded exactly when the deck is empty and one
seat still holds cards; in a two-seat game the winner is the other seat;
with a non-empty deck or two or more holders it returns false and changes
nothing (and with an empty deck and zero holders it returns true without a
winner). -/
theorem C4_check_game_over_spec (s : GameState) (hw : s.winner = none) :
    ((s.check_game_over.1 = true ∧ s.check_game_over.2.winner ≠ none) ↔
      (s.deck.cards = [] ∧ (card_holders s).length = 1)) ∧
    (s.deck.cards = [] → card_holders s = [0] → s.check_game_over.2.winner = some 1) ∧
    (s.deck.cards = [] → card_holders s = [1] → s.check_game_over.2.winner = some 0) ∧
    ((s.deck.cards ≠ [] ∨ 2 ≤ (card_holders s).length) →
      s.check_game_over = (false, s)) := by
  by_cases hdeck : s.deck.cards.isEmpty
  · have hdeck2 : s.deck.cards = [] := List.isEmpty_iff.mp hdeck
    rcases hhold : card_holders s with _ | ⟨a, _ | ⟨b, rest⟩⟩
    · have hr : s.check_game_over = (true, { s with game_phase := GamePhase.GameOver }) := by
        unfold GameState.check_game_over
        rw [if_pos hdeck, hhold]
        rfl
      refine ⟨?_, ?_, ?_, ?_⟩
      · rw [hr]
        simp [hw]
      · intro _ hcontra; cases hcontra
      · intro _ hcontra; cases hcontra
      · rintro (hne | hge)
        · exact absurd hdeck2 hne
        · exact absurd hge (by decide)
    · have hr : s.check_game_over = (true, { s with
          winner := some (if a = 1 then 0 else 1)
          game_phase := GamePhase.GameOver }) := by
        unfold GameState.check_game_over
        rw [if_pos hdeck, hhold]
        rfl
      refine ⟨?_, ?_, ?_, ?_⟩
      · rw [hr]
        simp [hdeck2]
      · intro _ h1
        cases h1
        rw [hr]
        rfl
      · intro _ h1
        cases h1
        rw [hr]
        rfl
      · rintro (hne | hge)
        · exact absurd hdeck2 hne
        · rw [List.length_singleton] at hge
          exact absurd hge (by omega)
    · have hr : s.check_game_over = (false, s) := by
        unfold GameState.check_game_over
        rw [if_pos hdeck, hhold]
        rfl
      refine ⟨?_, ?_, ?_, ?_⟩
      · rw [hr]
        constructor
        · rintro ⟨hfalse, _⟩; cases hfalse
        · rintro ⟨_, hlen⟩
          exact absurd hlen (by simp [Nat.succ_ne_zero])
      · intro _ hcontra; cases hcontra
      · intro _ hcontra; cases hcontra
      · intro _; exact hr
  · have hdeck2 : s.deck.cards ≠ [] := fun h => hdeck (by rw [h]; rfl)
    have hr : s.check_game_over = (false, s) := by
      unfold GameState.check_game_over
      rw [if_neg hdeck]
    refine ⟨?_, ?_, ?_, ?_⟩
    · rw [hr]
      constructor
      · rintro ⟨hfalse, _⟩; cases hfalse
      · rintro ⟨hcontra, _⟩; exact absurd hcontra hdeck2
    · intro hcontra _; exact absurd hcontra hdeck2
    · intro hcontra _; exact absurd hcontra hdeck2
    · intro _; exact hr

/-- A finished concrete game: the deck is exhausted and only seat 1 still
holds a card. -/
def wOver : GameState :=
  { wState with
    players := [mk_seat [], mk_seat [⟨Suit.Clubs, Rank.Nine⟩]]
    deck := { cards := [], trump_suit := some Suit.Spades } }

/-- Witness for C4 at `wOver`: with the deck empty and exactly seat 1 still
holding cards, the call reports game over with seat 0 as winner. -/
theorem C4_check_game_over_spec_witness :
    wOver.check_game_over.2.winner = some 0 ∧ wOver.check_game_over.1 = true := by
  constructor
  · exact (C4_check_game_over_spec wOver (by decide)).2.2.1 (by decide) (by decide)
  · exact ((C4_check_game_over_spec wOver (by decide)).1.mpr
      (by constructor <;> decide)).1

/-- `Deck::deal` returns exactly `n` cards and shrinks the deck by `n`
whenever at least `n` cards remain. -/
theorem deal_spec (n : Nat) : ∀ (d : Deck), n ≤ d.cards.length →
    (d.deal n).1.length = n ∧ (d.deal n).2.cards.length = d.cards.length - n := by
  induction n with
  | zero =>
    intro d _
    exact ⟨rfl, (Nat.sub_zero d.cards.length).symm⟩
  | succ k ih =>
    intro d h
    have hne : d.cards ≠ [] := by
      intro hnil
      rw [hnil] at h
      exact absurd h (by simp)
    obtain ⟨c, hc⟩ := Option.ne_none_iff_exists.mp
      (fun hnone => hne (List.getLast?_eq_none_iff.mp hnone))
    have hlen : d.cards.dropLast.length = d.cards.length - 1 :=
      List.length_dropLast d.cards
    have hk : k ≤ ({ d with cards := d.cards.dropLast } : Deck).cards.length := by
      show k ≤ d.cards.dropLast.length
      omega
    obtain ⟨ih1, ih2⟩ := ih { d with cards := d.cards.dropLast } hk
    unfold Deck.deal
    rw [← hc]
    refine ⟨?_, ?_⟩
    · show ((c :: (Deck.deal _ k).1)).length = k + 1
      rw [List.length_cons, ih1]
    · show (Deck.deal _ k).2.cards.length = d.cards.length - (k + 1)
      rw [ih2]
      show d.cards.dropLast.length - k = d.cards.length - (k + 1)
      omega

/-- The dealing loop of `setup_game`: starting from empty hands and a deck
with at least `6 * n` cards, every dealt seat ends with six cards and the
deck shrinks by six per seat. -/
theorem deal_step_fold_spec (ps : List Player) :
    ∀ (d : Deck) (acc : List Player),
      (∀ p ∈ ps, p.hand = []) → 6 * ps.length ≤ d.cards.length →
      (∀ p ∈ (ps.foldl deal_step (acc, d)).1, p ∈ acc ∨ p.hand.length = 6) ∧
      (ps.foldl deal_step (acc, d)).2.cards.length = d.cards.length - 6 * ps.length := by
  induction ps with
  | nil =>
    intro d acc _ _
    exact ⟨fun p hp => Or.inl hp, by simp⟩
  | cons p rest ih =>
    intro d acc hhands hlen
    have h6 : 6 ≤ d.cards.length := by
      have := hlen
      simp only [List.length_cons] at this
      omega
    obtain ⟨hdeal1, hdeal2⟩ := deal_spec 6 d h6
    have hp6 : (p.add_cards (d.deal 6).1).hand.length = 6 := by
      show ((p.hand ++ (d.deal 6).1).insertionSort hand_le).length = 6
      rw [List.length_insertionSort, List.length_append,
        hhands p (List.mem_cons_self p rest), hdeal1]
      simp
    have hrestlen : 6 * rest.length ≤ (d.deal 6).2.cards.length := by
      rw [hdeal2]
      simp only [List.length_cons] at hlen
      omega
    have hresthands : ∀ q ∈ rest, q.hand = [] :=
      fun q hq => hhands q (List.mem_cons_of_mem p hq)
    obtain ⟨ihmem, ihlen⟩ :=
      ih (d.deal 6).2 (acc ++ [p.add_cards (d.deal 6).1]) hresthands hrestlen
    constructor
    · intro q hq
      show q ∈ acc ∨ q.hand.length = 6
      rcases ihmem q hq with hmem | h6q
      · rcases List.mem_append.mp hmem with ha | hb
        · exact Or.inl ha
        · right
          rw [List.mem_singleton.mp hb]
          exact hp6
      · exact Or.inr h6q
    · have hstep : deal_step (acc, d) p = (acc ++ [p.add_cards (d.deal 6).1], (d.deal 6).2) := rfl
      show (List.foldl deal_step (deal_step (acc, d) p) rest).2.cards.length = _
      rw [hstep, ihlen, hdeal2]
      simp only [List.length_cons]
      omega

/-- C5: for N seats (2 or more, 6N at most 36) with empty hands, after
`setup_game` with any 36-card shuffle order every seat holds exactly six
cards, the deck retains `36 - 6N` cards, and the trump suit is set to the
suit of the card at the bottom of the deck (the code's `cards.last()`)
right after shuffling. -/
theorem C5_setup_game_spec (s : GameState) (order : List Card)
    (h2 : 2 ≤ s.players.length) (h36 : 6 * s.players.length ≤ 36)
    (hlen : order.length = 36)
    (hhands : ∀ p ∈ s.players, p.hand = []) :
    (∀ p ∈ (s.setup_game order).players, p.hand.length = 6) ∧
    (s.setup_game order).deck.cards.length = 36 - 6 * s.players.length ∧
    (∀ c, order.getLast? = some c → (s.setup_game order).trump_suit = some c.suit) ∧
    (s.setup_game order).trump_suit.isSome = true := by
  have hdlen : 6 * s.players.length ≤ (Deck.shuffled order).cards.length := by
    show 6 * s.players.length ≤ order.length
    omega
  obtain ⟨hmem, hdeck⟩ :=
    deal_step_fold_spec s.players (Deck.shuffled order) [] hhands hdlen
  have hplayers : (s.setup_game order).players =
      (s.players.foldl deal_step ([], Deck.shuffled order)).1 := rfl
  have hdeck2 : (s.setup_game order).deck =
      (s.players.foldl deal_step ([], Deck.shuffled order)).2 := rfl
  have htrump : (s.setup_game order).trump_suit = order.getLast?.map Card.suit := rfl
  have hne : order ≠ [] := by
    intro hnil
    rw [hnil] at hlen
    cases hlen
  obtain ⟨c0, hc0⟩ := Option.ne_none_iff_exists.mp
    (fun hnone => hne (List.getLast?_eq_none_iff.mp hnone))
  refine ⟨?_, ?_, ?_, ?_⟩
  · intro p hp
    rw [hplayers] at hp
    rcases hmem p hp with hnil | h6
    · cases hnil
    · exact h6
  · rw [hdeck2, hdeck]
    show (Deck.shuffled order).cards.length - _ = _
    show order.length - _ = _
    omega
  · intro c hc
    rw [htrump, hc]
    rfl
  · rw [htrump, ← hc0]
    rfl

/-- A fresh two-seat pre-game state, as built by `add_player` calls before
`setup_game`. -/
def wFresh : GameState :=
  { players := [mk_seat [], mk_seat []]
    deck := Deck.new
    discard_pile := []
    table_cards := []
    current_attacker := 0
    current_defender := 0
    trump_suit := none
    game_phase := GamePhase.Setup
    winner := none
    stuck_counter := 0 }

/-- Witness for C5: two fresh seats dealt from the unshuffled full-deck
order end with six cards each, 24 cards remain, and trump is the suit of
the bottom card (the Ace of Spades in `full_deck` order). -/
theorem C5_setup_game_spec_witness :
    ((wFresh.setup_game full_deck).players.all (fun p => p.hand.length = 6)) = true ∧
    (wFresh.setup_game full_deck).deck.cards.length = 24 ∧
    (wFresh.setup_game full_deck).trump_suit = some Suit.Spades := by
  obtain ⟨hmem, hdeck, htrump, _⟩ :=
    C5_setup_game_spec wFresh full_deck (by decide) (by decide) (by decide)
      (by intro p hp
          fin_cases hp <;> rfl)
  refine ⟨?_, ?_, ?_⟩
  · rw [List.all_eq_true]
    intro p hp
    exact decide_eq_true (hmem p hp)
  · rw [hdeck]
    rfl
  · exact htrump ⟨Suit.Spades, Rank.Ace⟩ (by decide)

instance {e a : Type} [DecidableEq e] [DecidableEq a] : DecidableEq (Except e a) := fun x y =>
  match x, y with
  | .ok v, .ok w =>
    if h : v = w then .isTrue (by rw [h]) else .isFalse (fun hc => h (Except.ok.inj hc))
  | .error v, .error w =>
    if h : v = w then .isTrue (by rw [h]) else .isFalse (fun hc => h (Except.error.inj hc))
  | .ok _, .error _ => .isFalse (fun hc => Except.noConfusion hc)
  | .error _, .ok _ => .isFalse (fun hc => Except.noConfusion hc)

/-- A successful `take_cards` leaves the table empty, enters Drawing, and
keeps roles, deck, discard pile, stuck counter and player count unchanged. -/
theorem take_cards_ok_shape (s s₁ : GameState) (h : s.take_cards = Except.ok s₁) :
    s₁.table_cards = [] ∧ s₁.game_phase = GamePhase.Drawing ∧
    s₁.current_attacker = s.current_attacker ∧
    s₁.current_defender = s.current_defender ∧
    s₁.players.length = s.players.length ∧
    s₁.stuck_counter = s.stuck_counter ∧
    s₁.deck = s.deck ∧ s₁.discard_pile = s.discard_pile := by
  unfold GameState.take_cards at h
  by_cases h1 : s.game_phase ≠ GamePhase.Defense
  · rw [if_pos h1] at h; cases h
  · rw [if_neg h1] at h
    by_cases h2 : s.table_cards.isEmpty
    · rw [if_pos h2] at h; cases h
    · rw [if_neg h2] at h
      cases hidx : s.players[s.current_defender]? with
      | none => rw [hidx] at h; cases h
      | some defender =>
        rw [hidx] at h
        cases h
        exact ⟨rfl, rfl, rfl, rfl, List.length_set .., rfl, rfl, rfl⟩

/-- `check_game_over` only ever touches the phase and the winner fields. -/
theorem check_game_over_shape (s : GameState) :
    (s.check_game_over).2.players = s.players ∧
    (s.check_game_over).2.deck = s.deck ∧
    (s.check_game_over).2.discard_pile = s.discard_pile ∧
    (s.check_game_over).2.table_cards = s.table_cards ∧
    (s.check_game_over).2.current_attacker = s.current_attacker ∧
    (s.check_game_over).2.current_defender = s.current_defender ∧
    (s.check_game_over).2.stuck_counter = s.stuck_counter := by
  unfold GameState.check_game_over
  by_cases h1 : s.deck.cards.isEmpty
  · rw [if_pos h1]
    by_cases h2 : (card_holders s).length ≤ 1
    · rw [if_pos h2]
      cases hl : (card_holders s).getLast? with
      | none => exact ⟨rfl, rfl, rfl, rfl, rfl, rfl, rfl⟩
      | some l => exact ⟨rfl, rfl, rfl, rfl, rfl, rfl, rfl⟩
    · rw [if_neg h2]
      exact ⟨rfl, rfl, rfl, rfl, rfl, rfl, rfl⟩
  · rw [if_neg h1]
    exact ⟨rfl, rfl, rfl, rfl, rfl, rfl, rfl⟩

/-- `draw_phase_finish` on an empty table never rotates the roles, and ends
in Attack or GameOver phase. -/
theorem draw_phase_finish_empty_table (s2 : GameState)
    (htab : s2.table_cards = []) :
    (draw_phase_finish s2).current_attacker = s2.current_attacker ∧
    (draw_phase_finish s2).current_defender = s2.current_defender ∧
    ((draw_phase_finish s2).game_phase = GamePhase.Attack ∨
      (draw_phase_finish s2).game_phase = GamePhase.GameOver) := by
  obtain ⟨_, _, _, h3tab, h3a, h3d, _⟩ := check_game_over_shape s2
  unfold draw_phase_finish
  by_cases hov : (s2.check_game_over).2.game_phase ≠ GamePhase.GameOver
  · rw [if_pos hov]
    have hemp : (! (s2.check_game_over).2.table_cards.isEmpty) = false := by
      rw [h3tab, htab]
      rfl
    rw [hemp, if_neg Bool.false_ne_true]
    exact ⟨h3a, h3d, Or.inl rfl⟩
  · rw [if_neg hov]
    push_neg at hov
    exact ⟨h3a, h3d, Or.inr hov⟩

/-- `draw_main` on an empty table never rotates the roles, and ends in
Attack or GameOver phase. -/
theorem draw_main_empty_table (s1 : GameState) (htab : s1.table_cards = []) :
    (draw_main s1).current_attacker = s1.current_attacker ∧
    (draw_main s1).current_defender = s1.current_defender ∧
    ((draw_main s1).game_phase = GamePhase.Attack ∨
      (draw_main s1).game_phase = GamePhase.GameOver) := by
  unfold draw_main
  exact draw_phase_finish_empty_table _ htab

/-- `draw_cards` on a Drawing state with an empty table (the state left by
any successful `take_cards`), an in-range stuck counter, a seat short of
cards and a non-empty deck equals the drawing branch with the counter
reset — in particular it never rotates the roles. -/
theorem draw_cards_empty_table_eq (s₁ : GameState)
    (hph : s₁.game_phase = GamePhase.Drawing)
    (htab : s₁.table_cards = [])
    (hstuck : s₁.stuck_counter + 1 ≤ 5)
    (hneed : s₁.players.any (fun p => p.hand_size < 6 && ! s₁.deck.is_empty) = true)
    (hdeck : s₁.deck.is_empty = false) :
    s₁.draw_cards =
      { draw_main { s₁ with stuck_counter := s₁.stuck_counter + 1 } with
        stuck_counter := 0 } := by
  have hno : ¬ s₁.game_phase ≠ GamePhase.Drawing := fun hne => hne hph
  have hst : ¬ s₁.stuck_counter + 1 > 5 := by omega
  have hneedB : (! s₁.players.any (fun p => p.hand_size < 6 && ! s₁.deck.is_empty)) = false := by
    rw [hneed]
    rfl
  have hdeckB : (! s₁.deck.is_empty) = true := by
    rw [hdeck]
    rfl
  have htab1 : ({ s₁ with stuck_counter := s₁.stuck_counter + 1 } : GameState).table_cards = [] :=
    htab
  obtain ⟨_, _, hphase⟩ :=
    draw_main_empty_table { s₁ with stuck_counter := s₁.stuck_counter + 1 } htab1
  simp only [GameState.draw_cards]
  rw [if_neg hno, if_neg hst, hneedB, if_neg Bool.false_ne_true, hdeckB, if_pos rfl,
    if_pos hphase]

/-- C6 (amended): immediately after the defender took the table via
`take_cards`, `draw_cards` (stuck counter in range, some seat short of
cards with a non-empty deck, game not over after drawing) does **not**
rotate the roles: the table is already empty, so attacker and defender stay
exactly as they were, and the phase becomes Attack.  Only in a two-seat
game does this coincide with the claimed `old defender + 1` / `+ 2`
rotation. -/
theorem C6_draw_after_take_roles (s s₁ : GameState)
    (htake : s.take_cards = Except.ok s₁)
    (hstuck : s₁.stuck_counter + 1 ≤ 5)
    (hneed : s₁.players.any (fun p => p.hand_size < 6 && ! s₁.deck.is_empty) = true)
    (hdeck : s₁.deck.is_empty = false)
    (hnotover : (s₁.draw_cards).game_phase ≠ GamePhase.GameOver) :
    (s₁.draw_cards).game_phase = GamePhase.Attack ∧
    (s₁.draw_cards).current_attacker = s.current_attacker ∧
    (s₁.draw_cards).current_defender = s.current_defender ∧
    (s.players.length = 2 → s.current_attacker < 2 →
      s.current_defender = (s.current_attacker + 1) % 2 →
      (s₁.draw_cards).current_attacker = (s.current_defender + 1) % 2 ∧
      (s₁.draw_cards).current_defender = ((s.current_defender + 1) % 2 + 1) % 2) := by
  obtain ⟨htab, hph, ha, hd, _, _, _, _⟩ := take_cards_ok_shape s s₁ htake
  have heq := draw_cards_empty_table_eq s₁ hph htab hstuck hneed hdeck
  obtain ⟨hA, hD, hP⟩ :=
    draw_main_empty_table { s₁ with stuck_counter := s₁.stuck_counter + 1 } htab
  have hfa : (s₁.draw_cards).current_attacker = s₁.current_attacker := by
    rw [heq]
    exact hA
  have hfd : (s₁.draw_cards).current_defender = s₁.current_defender := by
    rw [heq]
    exact hD
  have hfp : (s₁.draw_cards).game_phase = GamePhase.Attack := by
    rcases hP with h | h
    · rw [heq]; exact h
    · exfalso
      apply hnotover
      rw [heq]
      exact h
  refine ⟨hfp, by rw [hfa, ha], by rw [hfd, hd], ?_⟩
  intro _ halt hdef
  constructor
  · rw [hfa, ha, hdef]
    omega
  · rw [hfd, hd, hdef]
    omega

/-- The state `wDefense` leaves behind when its defender takes the table. -/
def wTaken : GameState :=
  { wDefense with
    players :=
      [mk_seat [⟨Suit.Hearts, Rank.Ten⟩],
       mk_seat [⟨Suit.Diamonds, Rank.Six⟩, ⟨Suit.Hearts, Rank.Seven⟩,
                ⟨Suit.Spades, Rank.Seven⟩]]
    table_cards := []
    game_phase := GamePhase.Drawing }

/-- Witness for the amended C6 at `wDefense`: after the take and the draw
the roles are unchanged and play is back in Attack phase. -/
theorem C6_draw_after_take_roles_witness :
    (wTaken.draw_cards).game_phase = GamePhase.Attack ∧
    (wTaken.draw_cards).current_attacker = 0 ∧
    (wTaken.draw_cards).current_defender = 1 := by
  have h := C6_draw_after_take_roles wDefense wTaken (by decide) (by decide)
    (by decide) (by decide) (by decide)
  exact ⟨h.1, h.2.1, h.2.2.1⟩

/-- A three-seat Defense-phase state about to have its defender (seat 1)
take the single table card; every hand is in range and the deck holds two
cards, so the subsequent draw runs its normal branch. -/
def cexTake : GameState :=
  { players :=
      [mk_seat [⟨Suit.Clubs, Rank.Six⟩, ⟨Suit.Clubs, Rank.Seven⟩,
                ⟨Suit.Clubs, Rank.Eight⟩, ⟨Suit.Clubs, Rank.Nine⟩,
                ⟨Suit.Clubs, Rank.Ten⟩, ⟨Suit.Clubs, Rank.Jack⟩],
       mk_seat [⟨Suit.Diamonds, Rank.Six⟩, ⟨Suit.Diamonds, Rank.Seven⟩,
                ⟨Suit.Diamonds, Rank.Eight⟩, ⟨Suit.Diamonds, Rank.Nine⟩,
                ⟨Suit.Diamonds, Rank.Ten⟩],
       mk_seat [⟨Suit.Spades, Rank.Six⟩, ⟨Suit.Spades, Rank.Seven⟩,
                ⟨Suit.Spades, Rank.Eight⟩, ⟨Suit.Spades, Rank.Nine⟩,
                ⟨Suit.Spades, Rank.Ten⟩]]
    deck := { cards := [⟨Suit.Hearts, Rank.King⟩, ⟨Suit.Hearts, Rank.Ace⟩],
              trump_suit := some Suit.Clubs }
    discard_pile := []
    table_cards := [(⟨Suit.Hearts, Rank.Seven⟩, none)]
    current_attacker := 0
    current_defender := 1
    trump_suit := some Suit.Clubs
    game_phase := GamePhase.Defense
    winner := none
    stuck_counter := 0 }

/-- Counterexample to C6 as stated: in the three-seat game `cexTake`, after
the defender takes and the draw succeeds (phase Attack, game not over), the
new attacker is the *old* attacker, seat 0 — not `old defender + 1 = 2` as
the claim requires. -/
theorem C6_counterexample :
    cexTake.game_phase = GamePhase.Defense ∧
    cexTake.table_cards ≠ [] ∧
    cexTake.take_cards.map
      (fun s₁ =>
        decide (s₁.stuck_counter + 1 ≤ 5)
        && s₁.players.any (fun p => p.hand_size < 6 && ! s₁.deck.is_empty)
        && ! s₁.deck.is_empty
        && decide ((s₁.draw_cards).game_phase = GamePhase.Attack)
        && decide ((s₁.draw_cards).current_attacker = 0)
        && ! decide ((s₁.draw_cards).current_attacker
              = (cexTake.current_defender + 1) % cexTake.players.length))
      = Except.ok true := by
  decide

/-- A list permuting a two-element list is one of its two orders. -/
theorem perm_pair_cases {α : Type} {l : List α} {a b : α} (h : l.Perm [a, b]) :
    l = [a, b] ∨ l = [b, a] := by
  rcases l with _ | ⟨x, _ | ⟨y, _ | ⟨z, rest⟩⟩⟩
  · cases h.length_eq
  · cases h.length_eq
  · have hx : x ∈ [a, b] := h.mem_iff.mp (by simp)
    rcases List.mem_cons.mp hx with hxa | hxb
    · subst hxa
      have h2 : [y].Perm [b] := (List.perm_cons x).mp h
      left
      rw [List.perm_singleton.mp h2]
    · have hxb2 : x = b := List.mem_singleton.mp hxb
      subst hxb2
      have h3 : (x :: y :: []).Perm (x :: a :: []) :=
        h.trans (List.Perm.swap x a [])
      have h2 : [y].Perm [a] := (List.perm_cons x).mp h3
      right
      rw [List.perm_singleton.mp h2]
  · have := h.length_eq
    simp at this

/-- When the greedy plan already spends two or more valuable cards, the
weighing stage of the Hard take decision always answers true. -/
theorem hard_take_weigh_true (s : GameState) (player_idx : Nat) (player : Player)
    (trump_suit : Suit) (v h : Nat) (hv : 2 ≤ v) :
    hard_take_weigh s player_idx player trump_suit v h = true := by
  have hv2 : decide (v < 2) = false := decide_eq_false (by omega)
  have hv1 : decide (v ≤ 1) = false := decide_eq_false (by omega)
  have hv0 : decide (2 ≤ v) = true := decide_eq_true hv
  simp only [hard_take_weigh]
  split
  · rfl
  · rw [hv2, Bool.and_false, if_neg Bool.false_ne_true,
      hv1, Bool.and_false, if_neg Bool.false_ne_true, hv0, Bool.true_or, Bool.true_or]

/-- Evaluation principle for `hard_should_take_cards` when the greedy plan
completes: with a valid seat, trump set, the undefended attacks and hand
given explicitly, every attack individually beatable, and a plan using two
or more valuable cards, the Hard AI takes. -/
theorem hard_take_eval (s : GameState) (player_idx : Nat) (pl : Player)
    (hand0 atks : List Card) (v h : Nat)
    (hp : s.players[player_idx]? = some pl)
    (ht : s.trump_suit = some Suit.Spades)
    (hh : pl.hand = hand0)
    (hund : (s.table_cards.filter (fun e => e.2.isNone)).map Prod.fst = atks)
    (hne : atks.isEmpty = false)
    (hany : atks.any
      (fun attack => (hand0.filter (fun c => c.can_beat attack Suit.Spades)).isEmpty) = false)
    (hplan : plan_defenses hand0 Suit.Spades atks [] 0 0 = some (v, h))
    (hv : 2 ≤ v) :
    hard_should_take_cards s player_idx = true := by
  simp only [hard_should_take_cards, hp, ht, hh, hund]
  rw [hne, if_neg Bool.false_ne_true, hany, if_neg Bool.false_ne_true, hplan]
  exact hard_take_weigh_true s player_idx pl Suit.Spades v h hv

/-- Evaluation principle for `hard_should_take_cards` when the greedy plan
runs out of distinct beaters: the Hard AI takes. -/
theorem hard_take_eval_none (s : GameState) (player_idx : Nat) (pl : Player)
    (hand0 atks : List Card)
    (hp : s.players[player_idx]? = some pl)
    (ht : s.trump_suit = some Suit.Spades)
    (hh : pl.hand = hand0)
    (hund : (s.table_cards.filter (fun e => e.2.isNone)).map Prod.fst = atks)
    (hne : atks.isEmpty = false)
    (hany : atks.any
      (fun attack => (hand0.filter (fun c => c.can_beat attack Suit.Spades)).isEmpty) = false)
    (hplan : plan_defenses hand0 Suit.Spades atks [] 0 0 = none) :
    hard_should_take_cards s player_idx = true := by
  simp only [hard_should_take_cards, hp, ht, hh, hund]
  rw [hne, if_neg Bool.false_ne_true, hany, if_neg Bool.false_ne_true, hplan]

/-- C8: whenever trump is Spades, a seat holds exactly the Jack of Spades
and the Ace of Hearts, and the undefended attacks are exactly two Tens of
two different non-Spades suits, the Hard strategy's take-cards decision for
that seat is true. -/
theorem C8_hard_take_two_tens (s : GameState) (player_idx : Nat) (pl : Player)
    (s1 s2 : Suit)
    (hp : s.players[player_idx]? = some pl)
    (ht : s.trump_suit = some Suit.Spades)
    (hhand : pl.hand.Perm [⟨Suit.Spades, Rank.Jack⟩, ⟨Suit.Hearts, Rank.Ace⟩])
    (hs1 : s1 ≠ Suit.Spades) (hs2 : s2 ≠ Suit.Spades) (hss : s1 ≠ s2)
    (hund : (s.table_cards.filter (fun e => e.2.isNone)).map Prod.fst
        = [⟨s1, Rank.Ten⟩, ⟨s2, Rank.Ten⟩]) :
    hard_should_take_cards s player_idx = true := by
  rcases perm_pair_cases hhand with hh | hh <;>
    cases s1 <;> cases s2 <;>
      first
        | exact absurd rfl hs1
        | exact absurd rfl hs2
        | exact absurd rfl hss
        | exact hard_take_eval s player_idx pl _ _ 2 1 hp ht hh hund (by decide)
            (by decide) (by decide) (by omega)
        | exact hard_take_eval_none s player_idx pl _ _ hp ht hh hund (by decide)
            (by decide) (by decide)

/-- A concrete state for C8: Hard AI defender holds the trump Jack and the
Ace of Hearts against two undefended non-trump Tens. -/
def wHard : GameState :=
  { players :=
      [mk_seat [⟨Suit.Spades, Rank.Jack⟩, ⟨Suit.Hearts, Rank.Ace⟩],
       mk_seat [⟨Suit.Clubs, Rank.Six⟩]]
    deck := { cards := [⟨Suit.Spades, Rank.Six⟩], trump_suit := some Suit.Spades }
    discard_pile := []
    table_cards := [(⟨Suit.Clubs, Rank.Ten⟩, none), (⟨Suit.Diamonds, Rank.Ten⟩, none)]
    current_attacker := 1
    current_defender := 0
    trump_suit := some Suit.Spades
    game_phase := GamePhase.Defense
    winner := none
    stuck_counter := 0 }

/-- Witness for C8 at `wHard`: the Hard AI elects to take. -/
theorem C8_hard_take_two_tens_witness :
    hard_should_take_cards wHard 0 = true :=
  C8_hard_take_two_tens wHard 0
    (mk_seat [⟨Suit.Spades, Rank.Jack⟩, ⟨Suit.Hearts, Rank.Ace⟩])
    Suit.Clubs Suit.Diamonds (by decide) (by decide) (List.Perm.refl _)
    (by decide) (by decide) (by decide) (by decide)

/-- The multiset of all cards held in the players' hands. -/
def hands_cards (ps : List Player) : Multiset Card :=
  ps.foldr (fun p acc => (p.hand : Multiset Card) + acc) 0

/-- The combined multiset of every card tracked by a game state: deck,
hands, table (attacks and defenses) and discard pile. -/
def GameState.all_cards (s : GameState) : Multiset Card :=
  (s.deck.cards : Multiset Card) + hands_cards s.players
    + (flat_table s.table_cards : Multiset Card)
    + (s.discard_pile : Multiset Card)

theorem hands_cards_nil : hands_cards [] = 0 := rfl

theorem hands_cards_cons (p : Player) (ps : List Player) :
    hands_cards (p :: ps) = (p.hand : Multiset Card) + hands_cards ps := rfl

theorem hands_cards_append (l1 l2 : List Player) :
    hands_cards (l1 ++ l2) = hands_cards l1 + hands_cards l2 := by
  induction l1 with
  | nil => rw [List.nil_append, hands_cards_nil, zero_add]
  | cons p rest ih =>
    rw [List.cons_append, hands_cards_cons, hands_cards_cons, ih, add_assoc]

/-- Replacing one seat exchanges exactly that seat's hand in the combined
hand multiset. -/
theorem hands_cards_set (ps : List Player) (i : Nat) (q : Player)
    (h : i < ps.length) :
    hands_cards (ps.set i q) + (ps[i].hand : Multiset Card)
      = hands_cards ps + (q.hand : Multiset Card) := by
  induction ps generalizing i with
  | nil => cases h
  | cons p rest ih =>
    cases i with
    | zero =>
      rw [List.set_cons_zero, hands_cards_cons, hands_cards_cons]
      show (q.hand : Multiset Card) + hands_cards rest + (p.hand : Multiset Card) = _
      abel
    | succ j =>
      have hj : j < rest.length := Nat.lt_of_succ_lt_succ h
      rw [List.set_cons_succ, hands_cards_cons, hands_cards_cons]
      show (p.hand : Multiset Card) + hands_cards (rest.set j q) + (rest[j].hand : Multiset Card) = _
      rw [add_assoc, ih j hj, ← add_assoc]

/-- `add_cards` adds exactly the given cards to the hand multiset. -/
theorem add_cards_multiset (p : Player) (cs : List Card) :
    ((p.add_cards cs).hand : Multiset Card) = (p.hand : Multiset Card) + (cs : Multiset Card) := by
  show ((List.insertionSort hand_le (p.hand ++ cs) : List Card) : Multiset Card) = _
  rw [Multiset.coe_eq_coe.mpr (List.perm_insertionSort hand_le _)]
  exact (Multiset.coe_add _ _).symm

/-- Removing position `i` and re-adding the element recovers the list as a
multiset. -/
theorem eraseIdx_cons_multiset (l : List Card) (i : Nat) (h : i < l.length) :
    (l : Multiset Card) = l[i] ::ₘ (l.eraseIdx i : Multiset Card) := by
  induction l generalizing i with
  | nil => cases h
  | cons x xs ih =>
    cases i with
    | zero =>
      rw [List.eraseIdx_cons_zero]
      rfl
    | succ j =>
      have hj : j < xs.length := Nat.lt_of_succ_lt_succ h
      rw [List.eraseIdx_cons_succ]
      show ((x :: xs : List Card) : Multiset Card) = _
      rw [← Multiset.cons_coe, ih j hj, ← Multiset.cons_coe, Multiset.cons_swap,
        List.getElem_cons_succ]

/-- Dealing conserves cards: the dealt hand plus the remaining deck is the
original deck, as multisets. -/
theorem deal_conserve (n : Nat) : ∀ (d : Deck),
    ((d.deal n).1 : Multiset Card) + ((d.deal n).2.cards : Multiset Card)
      = (d.cards : Multiset Card) := by
  induction n with
  | zero => intro d; exact zero_add _
  | succ k ih =>
    intro d
    unfold Deck.deal
    cases hg : d.cards.getLast? with
    | none =>
      show ((([] : List Card)) : Multiset Card) + _ = _
      exact zero_add _
    | some c =>
      have hne : d.cards ≠ [] := by
        intro hnil
        rw [hnil] at hg
        cases hg
      have hsplit : d.cards.dropLast ++ [c] = d.cards := by
        have hlast : d.cards.getLast hne = c := by
          have := List.getLast?_eq_getLast d.cards hne
          rw [hg] at this
          exact (Option.some.inj this).symm
        rw [← hlast]
        exact List.dropLast_append_getLast hne
      show ((c :: (Deck.deal _ k).1 : List Card) : Multiset Card) + _ = _
      rw [← Multiset.cons_coe, Multiset.cons_add, ih]
      show c ::ₘ ((d.cards.dropLast : List Card) : Multiset Card) = (d.cards : Multiset Card)
      rw [Multiset.cons_coe, Multiset.coe_eq_coe]
      have hperm : (c :: d.cards.dropLast).Perm (d.cards.dropLast ++ [c]) :=
        @List.perm_append_comm _ [c] d.cards.dropLast
      exact hperm.trans (List.Perm.of_eq hsplit)

theorem flat_table_append (t1 t2 : List (Card × Option Card)) :
    flat_table (t1 ++ t2) = flat_table t1 ++ flat_table t2 := by
  induction t1 with
  | nil => rfl
  | cons e rest ih =>
    rcases e with ⟨a, _ | d⟩
    · show a :: flat_table (rest ++ t2) = _
      rw [ih]
      rfl
    · show a :: d :: flat_table (rest ++ t2) = _
      rw [ih]
      rfl

/-- Recording a defense on an undefended entry adds exactly that card to the
flattened table. -/
theorem flat_table_set_defense (t : List (Card × Option Card)) (i : Nat)
    (a c : Card) (h : t[i]? = some (a, none)) :
    ((flat_table (t.set i (a, some c))) : Multiset Card)
      = c ::ₘ (flat_table t : Multiset Card) := by
  induction t generalizing i with
  | nil => cases h
  | cons e rest ih =>
    cases i with
    | zero =>
      have he : e = (a, none) := by
        rw [List.getElem?_cons_zero] at h
        exact Option.some.inj h
      subst he
      rw [List.set_cons_zero]
      show ((a :: c :: flat_table rest : List Card) : Multiset Card)
        = c ::ₘ ((a :: flat_table rest : List Card) : Multiset Card)
      rw [← Multiset.cons_coe, ← Multiset.cons_coe, ← Multiset.cons_coe,
        Multiset.cons_swap]
    | succ j =>
      rw [List.getElem?_cons_succ] at h
      rw [List.set_cons_succ]
      rcases e with ⟨b, _ | d⟩
      · show ((b :: flat_table (rest.set j (a, some c)) : List Card) : Multiset Card)
          = c ::ₘ ((b :: flat_table rest : List Card) : Multiset Card)
        rw [← Multiset.cons_coe, ih j h, ← Multiset.cons_coe, Multiset.cons_swap]
      · show ((b :: d :: flat_table (rest.set j (a, some c)) : List Card) : Multiset Card)
          = c ::ₘ ((b :: d :: flat_table rest : List Card) : Multiset Card)
        rw [← Multiset.cons_coe, ← Multiset.cons_coe, ih j h,
          ← Multiset.cons_coe, ← Multiset.cons_coe, Multiset.cons_swap c b,
          Multiset.cons_swap c d]

/-- The drawing loop conserves cards between the hands and the deck. -/
theorem draw_loop_conserve (order : List Nat) :
    ∀ (ps : List Player) (d : Deck),
      hands_cards (draw_loop order ps d).1
          + ((draw_loop order ps d).2.cards : Multiset Card)
        = hands_cards ps + (d.cards : Multiset Card) := by
  induction order with
  | nil => intro ps d; rfl
  | cons idx rest ih =>
    intro ps d
    cases hidx : ps[idx]? with
    | none =>
      simp only [draw_loop, hidx]
      exact ih ps d
    | some p =>
      have hlt : idx < ps.length := by
        by_contra hge
        rw [List.getElem?_eq_none (Nat.le_of_not_lt hge)] at hidx
        cases hidx
      have hpi : ps[idx] = p := by
        rw [List.getElem?_eq_getElem hlt] at hidx
        exact Option.some.inj hidx
      simp only [draw_loop, hidx]
      by_cases hcond : 6 - p.hand_size > 0 ∧ ¬ (d.cards.isEmpty = true)
      · rw [if_pos hcond, ih]
        have hset := hands_cards_set ps idx (p.add_cards (d.deal (6 - p.hand_size)).1) hlt
        rw [hpi, add_cards_multiset] at hset
        have hdeal := deal_conserve (6 - p.hand_size) d
        have : hands_cards (ps.set idx (p.add_cards (d.deal (6 - p.hand_size)).1))
            = hands_cards ps + ((d.deal (6 - p.hand_size)).1 : Multiset Card) := by
          apply add_right_cancel (b := (p.hand : Multiset Card))
          rw [hset]
          abel
        rw [this, add_assoc, hdeal]
      · rw [if_neg hcond]
        exact ih ps d

/-- `all_cards` only reads the deck, hands, table and discard pile. -/
theorem all_cards_congr (s1 s0 : GameState)
    (hp : s1.players = s0.players) (hd : s1.deck = s0.deck)
    (ht : s1.table_cards = s0.table_cards)
    (hdp : s1.discard_pile = s0.discard_pile) :
    s1.all_cards = s0.all_cards := by
  unfold GameState.all_cards
  rw [hp, hd, ht, hdp]

theorem check_game_over_all_cards (s : GameState) :
    (s.check_game_over).2.all_cards = s.all_cards := by
  obtain ⟨h1, h2, h3, h4, _, _, _⟩ := check_game_over_shape s
  exact all_cards_congr _ _ h1 h2 h4 h3

theorem draw_phase_finish_all_cards (s2 : GameState) :
    (draw_phase_finish s2).all_cards = s2.all_cards := by
  simp only [draw_phase_finish]
  split
  · split
    · exact (all_cards_congr _ _ rfl rfl rfl rfl).trans (check_game_over_all_cards s2)
    · exact (all_cards_congr _ _ rfl rfl rfl rfl).trans (check_game_over_all_cards s2)
  · exact check_game_over_all_cards s2

theorem draw_main_all_cards (s1 : GameState) :
    (draw_main s1).all_cards = s1.all_cards := by
  simp only [draw_main]
  rw [draw_phase_finish_all_cards]
  have hc := draw_loop_conserve
    ((List.range s1.players.length).map (fun i => (s1.current_attacker + i) % s1.players.length))
    s1.players s1.deck
  have key : (((draw_loop
        ((List.range s1.players.length).map (fun i => (s1.current_attacker + i) % s1.players.length))
        s1.players s1.deck).2.cards : List Card) : Multiset Card)
      + hands_cards (draw_loop
        ((List.range s1.players.length).map (fun i => (s1.current_attacker + i) % s1.players.length))
        s1.players s1.deck).1
      = (s1.deck.cards : Multiset Card) + hands_cards s1.players := by
    rw [add_comm, hc, add_comm]
  show (((draw_loop
        ((List.range s1.players.length).map (fun i => (s1.current_attacker + i) % s1.players.length))
        s1.players s1.deck).2.cards : List Card) : Multiset Card)
      + hands_cards (draw_loop
        ((List.range s1.players.length).map (fun i => (s1.current_attacker + i) % s1.players.length))
        s1.players s1.deck).1
      + (flat_table s1.table_cards : Multiset Card)
      + (s1.discard_pile : Multiset Card)
    = s1.all_cards
  rw [key]
  rfl

/-- C10 core for `draw_cards`: the combined card multiset is preserved. -/
theorem draw_cards_all_cards (s : GameState) :
    (s.draw_cards).all_cards = s.all_cards := by
  simp only [GameState.draw_cards]
  split
  · rfl
  · split
    · show ((s.deck.cards : Multiset Card) + hands_cards s.players
          + (0 : Multiset Card)
          + ((s.discard_pile ++ flat_table s.table_cards : List Card) : Multiset Card))
        = s.all_cards
      unfold GameState.all_cards
      rw [← Multiset.coe_add]
      abel
    · split
      · exact all_cards_congr _ _ rfl rfl rfl rfl
      · have hcore : ∀ s4 : GameState, s4.all_cards = s.all_cards →
            (if s4.game_phase = GamePhase.Attack ∨ s4.game_phase = GamePhase.GameOver then
              { s4 with stuck_counter := 0 } else s4).all_cards = s.all_cards := by
          intro s4 h
          split
          · exact (all_cards_congr _ _ rfl rfl rfl rfl).trans h
          · exact h
        apply hcore
        split
        · rw [draw_main_all_cards]
          exact all_cards_congr _ _ rfl rfl rfl rfl
        · split
          · exact (all_cards_congr _ _ rfl rfl rfl rfl).trans
              ((check_game_over_all_cards _).trans (all_cards_congr _ _ rfl rfl rfl rfl))
          · exact (check_game_over_all_cards _).trans (all_cards_congr _ _ rfl rfl rfl rfl)

/-- Moving one indexed card out of a seat's hand removes exactly it from
the combined hand multiset. -/
theorem hands_cards_erase (ps : List Player) (i ci : Nat) (p : Player)
    (hlt : i < ps.length) (hpi : ps[i] = p) (hc : ci < p.hand.length) :
    hands_cards (ps.set i { p with hand := p.hand.eraseIdx ci })
        + {p.hand[ci]}
      = hands_cards ps := by
  have hset := hands_cards_set ps i { p with hand := p.hand.eraseIdx ci } hlt
  rw [hpi] at hset
  have hsplit := eraseIdx_cons_multiset p.hand ci hc
  rw [hsplit] at hset
  apply add_right_cancel (b := ((p.hand.eraseIdx ci : List Card) : Multiset Card))
  rw [add_assoc, Multiset.singleton_add, hset]

/-- Conservation shape shared by `attack` and `pass_attack`: one card leaves
a hand and joins the table as a fresh undefended entry. -/
theorem hand_to_table_all_cards (s : GameState) (i ci : Nat) (p : Player)
    (hlt : i < s.players.length) (hpi : s.players[i] = p) (hc : ci < p.hand.length)
    (s2 : GameState)
    (hps : s2.players = s.players.set i { p with hand := p.hand.eraseIdx ci })
    (htb : s2.table_cards = s.table_cards ++ [(p.hand[ci], none)])
    (hdk : s2.deck = s.deck) (hdp : s2.discard_pile = s.discard_pile) :
    s2.all_cards = s.all_cards := by
  unfold GameState.all_cards
  rw [hps, htb, hdk, hdp, flat_table_append, ← Multiset.coe_add]
  have hx : ((flat_table [(p.hand[ci], none)] : List Card) : Multiset Card)
      = {p.hand[ci]} := rfl
  rw [hx, ← hands_cards_erase s.players i ci p hlt hpi hc]
  abel

theorem attack_all_cards (s : GameState) (ci pi : Nat) (s2 : GameState)
    (h : s.attack ci pi = Except.ok s2) : s2.all_cards = s.all_cards := by
  unfold GameState.attack at h
  cases hp : s.players[pi]? with
  | none => rw [hp] at h; cases h
  | some att =>
    by_cases hc : ci < att.hand.length
    · simp only [hp, Player.remove_card, dif_pos hc] at h
      have hlt : pi < s.players.length := by
        by_contra hge
        rw [List.getElem?_eq_none (Nat.le_of_not_lt hge)] at hp
        cases hp
      have hpi : s.players[pi] = att := by
        rw [List.getElem?_eq_getElem hlt] at hp
        exact Option.some.inj hp
      cases h
      exact hand_to_table_all_cards s pi ci att hlt hpi hc _ rfl rfl rfl rfl
    · simp only [hp, Player.remove_card, dif_neg hc] at h
      cases h

theorem pass_attack_all_cards (s : GameState) (ci ai : Nat) (s2 : GameState)
    (h : s.pass_attack ci ai = Except.ok s2) : s2.all_cards = s.all_cards := by
  unfold GameState.pass_attack at h
  cases hp : s.players[s.current_defender]? with
  | none => rw [hp] at h; cases h
  | some dfd =>
    by_cases hc : ci < dfd.hand.length
    · simp only [hp, Player.remove_card, dif_pos hc] at h
      have hlt : s.current_defender < s.players.length := by
        by_contra hge
        rw [List.getElem?_eq_none (Nat.le_of_not_lt hge)] at hp
        cases hp
      have hpi : s.players[s.current_defender] = dfd := by
        rw [List.getElem?_eq_getElem hlt] at hp
        exact Option.some.inj hp
      cases h
      exact hand_to_table_all_cards s s.current_defender ci dfd hlt hpi hc _ rfl rfl rfl rfl
    · simp only [hp, Player.remove_card, dif_neg hc] at h
      cases h

theorem take_cards_all_cards (s : GameState) (s2 : GameState)
    (h : s.take_cards = Except.ok s2) : s2.all_cards = s.all_cards := by
  unfold GameState.take_cards at h
  by_cases h1 : s.game_phase ≠ GamePhase.Defense
  · rw [if_pos h1] at h; cases h
  · rw [if_neg h1] at h
    by_cases h2 : s.table_cards.isEmpty
    · rw [if_pos h2] at h; cases h
    · rw [if_neg h2] at h
      cases hp : s.players[s.current_defender]? with
      | none => rw [hp] at h; cases h
      | some dfd =>
        simp only [hp] at h
        have hlt : s.current_defender < s.players.length := by
          by_contra hge
          rw [List.getElem?_eq_none (Nat.le_of_not_lt hge)] at hp
          cases hp
        have hpi : s.players[s.current_defender] = dfd := by
          rw [List.getElem?_eq_getElem hlt] at hp
          exact Option.some.inj hp
        cases h
        have hset := hands_cards_set s.players s.current_defender
          (dfd.add_cards (flat_table s.table_cards)) hlt
        rw [hpi, add_cards_multiset] at hset
        have hkey : hands_cards (s.players.set s.current_defender
              (dfd.add_cards (flat_table s.table_cards)))
            = hands_cards s.players + (flat_table s.table_cards : Multiset Card) := by
          apply add_right_cancel (b := (dfd.hand : Multiset Card))
          rw [hset]
          abel
        unfold GameState.all_cards
        show (s.deck.cards : Multiset Card)
            + hands_cards (s.players.set s.current_defender
                (dfd.add_cards (flat_table s.table_cards)))
            + (0 : Multiset Card) + (s.discard_pile : Multiset Card)
          = _
        rw [hkey]
        abel

theorem defend_all_cards (s : GameState) (ci : Nat) (s2 : GameState)
    (h : s.defend ci = Except.ok s2) : s2.all_cards = s.all_cards := by
  unfold GameState.defend at h
  cases hfu : first_undefended s.table_cards with
  | none => rw [hfu] at h; cases h
  | some idx =>
    cases hp : s.players[s.current_defender]? with
    | none => simp only [hfu, hp] at h; cases h
    | some dfd =>
      by_cases hc : ci < dfd.hand.length
      · simp only [hfu, hp, dif_pos hc] at h
        by_cases hpass :
            (dfd.hand[ci].can_pass (s.table_cards.getD idx (default, none)).1) = true
        · rw [if_pos hpass] at h
          exact pass_attack_all_cards s ci idx s2 h
        · rw [if_neg hpass] at h
          split at h
          next hvalid =>
            simp only [Player.remove_card, dif_pos hc] at h
            have hlt : s.current_defender < s.players.length := by
              by_contra hge
              rw [List.getElem?_eq_none (Nat.le_of_not_lt hge)] at hp
              cases hp
            have hpi : s.players[s.current_defender] = dfd := by
              rw [List.getElem?_eq_getElem hlt] at hp
              exact Option.some.inj hp
            unfold first_undefended at hfu
            rw [List.findIdx?_eq_some_iff_getElem] at hfu
            obtain ⟨hilt, hpred, _⟩ := hfu
            have hsnd : (s.table_cards[idx]).2 = none :=
              Option.isNone_iff_eq_none.mp (by exact hpred)
            have hentry : s.table_cards[idx]? = some ((s.table_cards[idx]).1, none) := by
              rw [List.getElem?_eq_getElem hilt]
              refine congrArg some (Prod.ext rfl hsnd)
            cases h
            unfold GameState.all_cards
            show (s.deck.cards : Multiset Card)
                + hands_cards (s.players.set s.current_defender
                    { dfd with hand := dfd.hand.eraseIdx ci })
                + ((flat_table (s.table_cards.set idx
                    ((s.table_cards.getD idx (default, none)).1, some dfd.hand[ci]))) : Multiset Card)
                + (s.discard_pile : Multiset Card)
              = _
            rw [List.getD_eq_getElem s.table_cards (default, none) hilt]
            rw [flat_table_set_defense s.table_cards idx (s.table_cards[idx]).1 dfd.hand[ci] hentry]
            rw [← hands_cards_erase s.players s.current_defender ci dfd hlt hpi hc]
            rw [← Multiset.singleton_add]
            abel
          next hvalid =>
            cases h
      · simp only [hfu, hp, dif_neg hc] at h
        cases h

theorem hands_cards_empty (ps : List Player) (h : ∀ p ∈ ps, p.hand = []) :
    hands_cards ps = 0 := by
  induction ps with
  | nil => rfl
  | cons p rest ih =>
    rw [hands_cards_cons, h p (List.mem_cons_self p rest),
      ih (fun q hq => h q (List.mem_cons_of_mem p hq))]
    rfl

/-- The dealing loop of `setup_game` conserves cards between the dealt
hands and the remaining deck. -/
theorem deal_step_fold_conserve (ps : List Player) :
    ∀ (d : Deck) (acc : List Player),
      hands_cards (ps.foldl deal_step (acc, d)).1
          + ((ps.foldl deal_step (acc, d)).2.cards : Multiset Card)
        = hands_cards acc + hands_cards ps + (d.cards : Multiset Card) := by
  induction ps with
  | nil =>
    intro d acc
    show hands_cards acc + (d.cards : Multiset Card) = _
    rw [hands_cards_nil, add_zero]
  | cons p rest ih =>
    intro d acc
    have hstep : deal_step (acc, d) p
        = (acc ++ [p.add_cards (d.deal 6).1], (d.deal 6).2) := rfl
    show hands_cards (List.foldl deal_step (deal_step (acc, d) p) rest).1
        + (((List.foldl deal_step (deal_step (acc, d) p) rest).2.cards : List Card) : Multiset Card)
      = _
    rw [hstep, ih, hands_cards_append, hands_cards_cons, hands_cards_nil,
      add_cards_multiset, hands_cards_cons, ← deal_conserve 6 d]
    abel

/-- After `setup_game` from a clean pre-game state, the tracked cards are
exactly the shuffled order. -/
theorem setup_game_all_cards (s : GameState) (order : List Card)
    (hhands : ∀ p ∈ s.players, p.hand = [])
    (htab : s.table_cards = []) (hdisc : s.discard_pile = []) :
    (s.setup_game order).all_cards = (order : Multiset Card) := by
  have hzero : hands_cards s.players = 0 := hands_cards_empty s.players hhands
  unfold GameState.all_cards
  show ((s.players.foldl deal_step ([], Deck.shuffled order)).2.cards : Multiset Card)
      + hands_cards (s.players.foldl deal_step ([], Deck.shuffled order)).1
      + (flat_table s.table_cards : Multiset Card)
      + (s.discard_pile : Multiset Card)
    = (order : Multiset Card)
  rw [htab, hdisc]
  have hfold := deal_step_fold_conserve s.players (Deck.shuffled order) []
  rw [hands_cards_nil, hzero, zero_add, zero_add] at hfold
  have key : ((s.players.foldl deal_step ([], Deck.shuffled order)).2.cards : Multiset Card)
      + hands_cards (s.players.foldl deal_step ([], Deck.shuffled order)).1
      = (order : Multiset Card) := by
    rw [add_comm]
    exact hfold
  rw [key]
  show (order : Multiset Card) + (0 : Multiset Card) + (([] : List Card) : Multiset Card)
    = (order : Multiset Card)
  rw [Multiset.coe_nil, add_zero, add_zero]

/-- C10: `attack`, `defend` (pass branch included), `take_cards` and
`draw_cards` all preserve the combined multiset of cards across deck,
hands, table and discard pile; and from a clean pre-game state, after
`setup_game` with any permutation of the full deck that combined multiset
is exactly the 36-card deck. -/
theorem C10_card_conservation :
    (∀ (s : GameState) (ci pi : Nat) (s2 : GameState),
      s.attack ci pi = Except.ok s2 → s2.all_cards = s.all_cards) ∧
    (∀ (s : GameState) (ci : Nat) (s2 : GameState),
      s.defend ci = Except.ok s2 → s2.all_cards = s.all_cards) ∧
    (∀ (s s2 : GameState), s.take_cards = Except.ok s2 → s2.all_cards = s.all_cards) ∧
    (∀ s : GameState, (s.draw_cards).all_cards = s.all_cards) ∧
    (∀ (s : GameState) (order : List Card), order.Perm full_deck →
      (∀ p ∈ s.players, p.hand = []) → s.table_cards = [] → s.discard_pile = [] →
      (s.setup_game order).all_cards = (full_deck : Multiset Card)) :=
  ⟨attack_all_cards, defend_all_cards, take_cards_all_cards, draw_cards_all_cards,
   fun s order hperm hh ht hd =>
     (setup_game_all_cards s order hh ht hd).trans (Multiset.coe_eq_coe.mpr hperm)⟩

/-- Witness for C10: a full-deck setup from the fresh two-seat state, an
attack step at `wState`, and a draw step at `wState`. -/
theorem C10_card_conservation_witness :
    (wFresh.setup_game full_deck).all_cards = (full_deck : Multiset Card) ∧
    GameState.all_cards { wState with
        players := [mk_seat [], mk_seat [⟨Suit.Clubs, Rank.Nine⟩]]
        table_cards := [(⟨Suit.Hearts, Rank.Seven⟩, none)]
        game_phase := GamePhase.Defense
        current_attacker := 0
        current_defender := 1 } = wState.all_cards ∧
    (wState.draw_cards).all_cards = wState.all_cards := by
  refine ⟨?_, ?_, ?_⟩
  · exact C10_card_conservation.2.2.2.2 wFresh full_deck (List.Perm.refl _)
      (by intro p hp; fin_cases hp <;> rfl) rfl rfl
  · exact C10_card_conservation.1 wState 0 0 _ (by decide)
  · exact C10_card_conservation.2.2.2.1 wState

end Durak
